import Mathlib

/-!
Verification of the generational-indextree arena (`src/arena.rs`).

The repository's `Arena<T>` wraps a generational slot pool
(`generational_arena::Arena<Node<T>>`): slots are indexed by a dense
integer and tagged with a generation counter, and node identifiers are
`(index, generation)` pairs.  The pool itself, and the `Node` / `NodeId`
records, are not part of `src/`; they are modelled here from the spec
(sections 3 and 4.1).  The code of `src/arena.rs` (delegating accessors
and the `PartialEq` loop) is embedded directly.
-/

set_option maxHeartbeats 1000000

namespace GenIndexTree

/-- Modelled from the spec: `NodeId` is "an opaque, copyable identifier
wrapping a slot index and generation tag"; equality is `(index, generation)`
equality.  (The `NodeId` record is repository code missing from `src/`.) -/
structure NodeId where
  index : Nat
  generation : Nat
deriving DecidableEq, Repr

/-- Modelled from the spec: `Node<T>` is "the payload record stored per
slot — user data plus five optional neighbor identifiers (parent,
first_child, last_child, previous_sibling, next_sibling)".  (The `Node`
record is repository code missing from `src/`.)  Node equality compares
payload and the five topology links. -/
structure Node (T : Type) where
  parent : Option NodeId
  first_child : Option NodeId
  last_child : Option NodeId
  previous_sibling : Option NodeId
  next_sibling : Option NodeId
  data : T
deriving DecidableEq, Repr

/-- A freshly created node: payload plus all five topology links absent. -/
def Node.new {T : Type} (data : T) : Node T :=
  { parent := none
    first_child := none
    last_child := none
    previous_sibling := none
    next_sibling := none
    data := data }

/-- Modelled from the spec: a pool slot is "either occupied (holds a Node)
or free (holds a free-list link)"; each slot carries a generation counter,
incremented when the slot is freed. -/
inductive Entry (T : Type) where
  | free (generation : Nat)
  | occupied (generation : Nat) (value : Node T)
deriving DecidableEq, Repr

/-- The generation counter currently stored in a slot. -/
def Entry.generation {T : Type} : Entry T → Nat
  | .free g => g
  | .occupied g _ => g

/-- Whether a slot is currently free. -/
def Entry.isFree {T : Type} : Entry T → Bool
  | .free _ => true
  | .occupied _ _ => false

/-- Whether a slot is currently occupied by a live node. -/
def Entry.isOccupied {T : Type} : Entry T → Bool
  | .free _ => false
  | .occupied _ _ => true

/-- Modelled from the spec: the generational slot pool is "an ordered
collection of slots indexed by a dense integer", wrapped by
`Arena<T> { nodes: GenerationalArena<Node<T>> }` in `src/arena.rs`. -/
structure Arena (T : Type) where
  slots : List (Entry T)
deriving DecidableEq, Repr

/-- `Arena::new` / `Default`: the empty arena. -/
def Arena.new (T : Type) : Arena T := ⟨[]⟩

/-- Modelled from the spec: the addressable index space — the pool fails
"only if the slot count would exceed the addressable index space", i.e.
when the arena already has `usize::max_value()` slots. -/
def USIZE_MAX : Nat := 2 ^ 64 - 1

/-- The lowest free slot, as `(index, stored generation)`, scanning the
slot list from the front. -/
def findFree {T : Type} : List (Entry T) → Option (Nat × Nat)
  | [] => none
  | .free g :: _ => some (0, g)
  | .occupied _ _ :: rest =>
      (findFree rest).map (fun p => (p.1 + 1, p.2))

/-- `Arena::get`, modelled from the spec: "returns `None` if the slot is
free or if the slot's current generation differs from the identifier's
generation (stale-identifier detection); otherwise returns access to the
occupant".  (`src/arena.rs` line 124 delegates to the pool's `get`.) -/
def Arena.get {T : Type} (a : Arena T) (id : NodeId) : Option (Node T) :=
  match a.slots[id.index]? with
  | some (.occupied g v) => if g = id.generation then some v else none
  | _ => none

/-- `Arena::get_mut` (`src/arena.rs` line 144): same generation-checked
lookup as `get`, giving exclusive access to the occupant; in this pure
embedding the lookup part coincides with `get`. -/
def Arena.get_mut {T : Type} (a : Arena T) (id : NodeId) : Option (Node T) :=
  match a.slots[id.index]? with
  | some (.occupied g v) => if g = id.generation then some v else none
  | _ => none

/-- `Arena::new_node` (`src/arena.rs` line 55), with the pool's `insert`
modelled from the spec: "stores value in a free slot (reusing the lowest
available freed slot; generation of that slot was already incremented on
free) or appends a new slot; returns an identifier combining slot index
and slot's current generation.  Fails (aborts) only if the slot count
would exceed the addressable index space."  `Except.error` models the
panic. -/
def Arena.new_node {T : Type} (a : Arena T) (data : T) :
    Except Unit (NodeId × Arena T) :=
  match findFree a.slots with
  | some (i, g) =>
      .ok (⟨i, g⟩, ⟨a.slots.set i (.occupied g (Node.new data))⟩)
  | none =>
      if a.slots.length < USIZE_MAX then
        .ok (⟨a.slots.length, 0⟩, ⟨a.slots ++ [.occupied 0 (Node.new data)]⟩)
      else
        .error ()

/-- The pool's `remove`, modelled from the spec: "marks the slot free,
increments its generation, and links it into the free list.
Idempotent-safe: removing an already-stale identifier is a no-op". -/
def Arena.removeSlot {T : Type} (a : Arena T) (id : NodeId) : Arena T :=
  match a.slots[id.index]? with
  | some (.occupied g _) =>
      if g = id.generation then ⟨a.slots.set id.index (.free (g + 1))⟩ else a
  | _ => a

/-- `Arena::count` (`src/arena.rs` line 73): the number of currently
occupied slots (the pool's `len`). -/
def Arena.count {T : Type} (a : Arena T) : Nat :=
  (a.slots.filter Entry.isOccupied).length

/-- `Arena::is_empty` (`src/arena.rs` line 92). -/
def Arena.is_empty {T : Type} (a : Arena T) : Bool :=
  a.count == 0

/-- `Arena::get2_mut` (`src/arena.rs` line 177), with the pool's
`get_pair_mut` modelled from the spec: "returns independent mutable access
to two distinct occupied slots simultaneously; must reject (abort) the
degenerate case where both identifiers name the same slot".  `Except.error`
models the panic; each component is the generation-checked lookup. -/
def Arena.get2_mut {T : Type} (a : Arena T) (i1 i2 : NodeId) :
    Except Unit (Option (Node T) × Option (Node T)) :=
  if i1.index = i2.index then
    .error ()
  else
    .ok (a.get_mut i1, a.get_mut i2)

/-- `Arena::iter` (`src/arena.rs` line 208): all live nodes in storage
order, skipping freed slots. -/
def Arena.iter {T : Type} (a : Arena T) : List (Node T) :=
  a.slots.filterMap (fun e =>
    match e with
    | .occupied _ v => some v
    | .free _ => none)

/-- Helper for `iter_pairs`: walk the slot list keeping the running slot
index, yielding `(NodeId, Node)` for each occupied slot. -/
def iterPairsAux {T : Type} : List (Entry T) → Nat → List (NodeId × Node T)
  | [], _ => []
  | .free _ :: rest, i => iterPairsAux rest (i + 1)
  | .occupied g v :: rest, i => (⟨i, g⟩, v) :: iterPairsAux rest (i + 1)

/-- `Arena::iter_pairs` (`src/arena.rs` line 225): all `(NodeId, Node)`
pairs for live slots in storage order. -/
def Arena.iter_pairs {T : Type} (a : Arena T) : List (NodeId × Node T) :=
  iterPairsAux a.slots 0

/-- `Index<NodeId> for Arena` (`src/arena.rs` line 241), the trusted fast
path, modelled from the spec: "direct indexed access assumes the
identifier is valid and signals a fatal error (abort) if it is not
found".  `Except.error` models the panic. -/
def Arena.indexGet {T : Type} (a : Arena T) (id : NodeId) :
    Except Unit (Node T) :=
  match a.get id with
  | some n => .ok n
  | none => .error ()

/-- `IndexMut<NodeId> for Arena` (`src/arena.rs` line 249): the mutable
trusted fast path, over the same generation-checked lookup. -/
def Arena.indexGetMut {T : Type} (a : Arena T) (id : NodeId) :
    Except Unit (Node T) :=
  match a.get_mut id with
  | some n => .ok n
  | none => .error ()

/-- Inserting a list of payloads in order, collecting the issued
identifiers; fails if any insertion fails. -/
def Arena.insertList {T : Type} : Arena T → List T →
    Except Unit (List NodeId × Arena T)
  | a, [] => .ok ([], a)
  | a, v :: rest =>
    match a.new_node v with
    | .ok (id, a') =>
      match Arena.insertList a' rest with
      | .ok (ids, a2) => .ok (id :: ids, a2)
      | .error e => .error e
    | .error e => .error e

/-- Removing a list of identifiers in order. -/
def Arena.removeList {T : Type} (a : Arena T) (ids : List NodeId) :
    Arena T :=
  ids.foldl Arena.removeSlot a

/-- The comparison loop of `impl PartialEq for Arena` (`src/arena.rs`
lines 261-268): advance both iterators in lockstep while the running
`equal` flag holds, comparing `Option<&Node>` values, and stop once the
left iterator is exhausted. -/
def eqLoop {T : Type} [DecidableEq T] : List (Node T) → List (Node T) → Bool
  | [], [] => true
  | [], _ :: _ => false
  | _ :: _, [] => false
  | x :: xs, y :: ys => x = y && eqLoop xs ys

/-- `impl PartialEq for Arena` (`src/arena.rs` lines 255-271): `equal`
starts as the comparison of live-node counts; the loop then runs only
while `equal` holds. -/
def Arena.arenaEq {T : Type} [DecidableEq T] (a b : Arena T) : Bool :=
  if a.count = b.count then eqLoop a.iter b.iter else false

/-! ### Basic lemmas about the pool -/

theorem get_eq_get_mut {T : Type} (a : Arena T) (id : NodeId) :
    a.get id = a.get_mut id := rfl

/-- `findFree` really returns a free slot with its stored generation. -/
theorem findFree_spec {T : Type} :
    ∀ (l : List (Entry T)) (i g : Nat),
      findFree l = some (i, g) → l[i]? = some (Entry.free g) := by
  intro l
  induction l with
  | nil => intro i g h; simp [findFree] at h
  | cons e rest ih =>
    intro i g h
    cases e with
    | free g' =>
      rw [show findFree (Entry.free g' :: rest) = some (0, g') from rfl] at h
      injection h with h
      injection h with hi hg
      subst hi; subst hg
      simp
    | occupied g' v =>
      rw [show findFree (Entry.occupied g' v :: rest) =
        (findFree rest).map (fun p => (p.1 + 1, p.2)) from rfl] at h
      cases hf : findFree rest with
      | none => rw [hf] at h; simp at h
      | some p =>
        obtain ⟨i', g''⟩ := p
        rw [hf] at h
        simp only [Option.map_some'] at h
        injection h with h
        injection h with hi hg
        subst hi; subst hg
        simpa using ih i' g'' hf

/-- `findFree` returns the lowest free slot: every slot strictly before it
is occupied. -/
theorem findFree_lowest {T : Type} :
    ∀ (l : List (Entry T)) (i g : Nat),
      findFree l = some (i, g) →
      ∀ j, j < i → ∀ e, l[j]? = some e → e.isFree = false := by
  intro l
  induction l with
  | nil => intro i g h; simp [findFree] at h
  | cons e rest ih =>
    intro i g h j hj e' he'
    cases e with
    | free g' =>
      rw [show findFree (Entry.free g' :: rest) = some (0, g') from rfl] at h
      injection h with h
      injection h with hi hg
      exact absurd hj (by omega)
    | occupied g' v =>
      rw [show findFree (Entry.occupied g' v :: rest) =
        (findFree rest).map (fun p => (p.1 + 1, p.2)) from rfl] at h
      cases hf : findFree rest with
      | none => rw [hf] at h; simp at h
      | some p =>
        obtain ⟨i', g''⟩ := p
        rw [hf] at h
        simp only [Option.map_some'] at h
        injection h with h
        injection h with hi hg
        subst hi; subst hg
        cases j with
        | zero =>
          simp at he'
          subst he'
          rfl
        | succ j' =>
          simp at he'
          exact ih i' g'' hf j' (by omega) e' he'

/-- If `findFree` fails, no slot is free. -/
theorem findFree_none_spec {T : Type} :
    ∀ l : List (Entry T), findFree l = none →
      ∀ (i g : Nat), l[i]? ≠ some (Entry.free g) := by
  intro l
  induction l with
  | nil => intro _ i g; simp
  | cons e rest ih =>
    intro h i g
    cases e with
    | free g' =>
      rw [show findFree (Entry.free g' :: rest) = some (0, g') from rfl] at h
      exact absurd h (by simp)
    | occupied g' v =>
      rw [show findFree (Entry.occupied g' v :: rest) =
        (findFree rest).map (fun p => (p.1 + 1, p.2)) from rfl] at h
      rw [Option.map_eq_none'] at h
      cases i with
      | zero => simp
      | succ i' => simpa using ih h i' g

/-- If every slot is occupied, `findFree` fails. -/
theorem findFree_eq_none {T : Type} :
    ∀ l : List (Entry T), (∀ e ∈ l, e.isFree = false) → findFree l = none := by
  intro l
  induction l with
  | nil => intro _; rfl
  | cons e rest ih =>
    intro h
    cases e with
    | free g' =>
      have := h (.free g') (by simp)
      simp [Entry.isFree] at this
    | occupied g' v =>
      simp [findFree]
      exact ih (fun e he => h e (by simp [he]))

/-- After an occupied prefix, the head of the remainder is the slot
`findFree` returns. -/
theorem findFree_append_free {T : Type} :
    ∀ (os : List (Entry T)) (g : Nat) (l : List (Entry T)),
      (∀ e ∈ os, e.isFree = false) →
      findFree (os ++ .free g :: l) = some (os.length, g) := by
  intro os
  induction os with
  | nil => intro g l _; simp [findFree]
  | cons e rest ih =>
    intro g l h
    cases e with
    | free g' =>
      have := h (.free g') (by simp)
      simp [Entry.isFree] at this
    | occupied g' v =>
      have ihh := ih g l (fun e he => h e (by simp [he]))
      rw [List.cons_append,
        show findFree (Entry.occupied g' v :: (rest ++ Entry.free g :: l)) =
          (findFree (rest ++ Entry.free g :: l)).map
            (fun p => (p.1 + 1, p.2)) from rfl,
        ihh]
      simp

/-! ### C2: stale or foreign identifiers -/

/-- C2: for every arena and every node identifier that is stale (wrong
generation for its slot) or was never issued by this arena (no such slot,
or the slot is free), the checked accessors `get` and `get_mut` return
`None` rather than crashing or returning some other occupant. -/
theorem c2_stale_identifier_get_none {T : Type} (a : Arena T) (id : NodeId)
    (h : ∀ g v, a.slots[id.index]? = some (Entry.occupied g v) →
      g ≠ id.generation) :
    a.get id = none ∧ a.get_mut id = none := by
  rw [← get_eq_get_mut, and_self]
  unfold Arena.get
  cases he : a.slots[id.index]? with
  | none => simp
  | some e =>
    cases e with
    | free g => simp
    | occupied g v =>
      have := h g v he
      simp [this]

theorem c2_stale_identifier_get_none_witness :
    (∀ g v,
        (⟨[Entry.occupied 1 (Node.new (7 : Nat))]⟩ :
          Arena Nat).slots[(⟨0, 0⟩ : NodeId).index]? =
          some (Entry.occupied g v) → g ≠ (⟨0, 0⟩ : NodeId).generation) ∧
      ((⟨[Entry.occupied 1 (Node.new (7 : Nat))]⟩ : Arena Nat).get ⟨0, 0⟩ =
          none ∧
        (⟨[Entry.occupied 1 (Node.new (7 : Nat))]⟩ : Arena Nat).get_mut
            ⟨0, 0⟩ =
          none) := by
  refine ⟨?_, ?_⟩
  · rintro g v hgv
    simp only [List.getElem?_cons_zero, Option.some.injEq,
      Entry.occupied.injEq] at hgv
    obtain ⟨hg, -⟩ := hgv
    show g ≠ 0
    omega
  · apply c2_stale_identifier_get_none
    rintro g v hgv
    simp only [List.getElem?_cons_zero, Option.some.injEq,
      Entry.occupied.injEq] at hgv
    obtain ⟨hg, -⟩ := hgv
    show g ≠ 0
    omega

/-! ### C3: dual mutable access -/

/-- C3: `get2_mut(i1, i2)` panics (modelled as `Except.error`) exactly when
the two identifiers name the same slot; for distinct slots it returns the
pair of generation-checked lookups, each `None` when its slot is free or
the generation does not match. -/
theorem c3_get2_mut_same_slot_panics {T : Type} (a : Arena T)
    (i1 i2 : NodeId) :
    (a.get2_mut i1 i2 = Except.error () ↔ i1.index = i2.index) ∧
      (i1.index ≠ i2.index →
        a.get2_mut i1 i2 = Except.ok (a.get_mut i1, a.get_mut i2)) := by
  unfold Arena.get2_mut
  by_cases h : i1.index = i2.index <;> simp [h]

theorem c3_get2_mut_same_slot_panics_witness :
    ((⟨[Entry.occupied 0 (Node.new (1 : Nat)),
          Entry.occupied 0 (Node.new 2)]⟩ : Arena Nat).get2_mut ⟨0, 0⟩
          ⟨0, 5⟩ =
        Except.error ()) ∧
      ((⟨0, 0⟩ : NodeId).index ≠ (⟨1, 0⟩ : NodeId).index ∧
        (⟨[Entry.occupied 0 (Node.new (1 : Nat)),
            Entry.occupied 0 (Node.new 2)]⟩ : Arena Nat).get2_mut ⟨0, 0⟩
            ⟨1, 0⟩ =
          Except.ok
            ((⟨[Entry.occupied 0 (Node.new (1 : Nat)),
                Entry.occupied 0 (Node.new 2)]⟩ : Arena Nat).get_mut ⟨0, 0⟩,
              (⟨[Entry.occupied 0 (Node.new (1 : Nat)),
                  Entry.occupied 0 (Node.new 2)]⟩ : Arena Nat).get_mut
                ⟨1, 0⟩)) :=
  ⟨(c3_get2_mut_same_slot_panics _ ⟨0, 0⟩ ⟨0, 5⟩).1.mpr rfl,
    by decide,
    (c3_get2_mut_same_slot_panics _ ⟨0, 0⟩ ⟨1, 0⟩).2 (by decide)⟩

/-! ### C6: trusted fast path -/

/-- C6: direct indexing (`Index` / `IndexMut`, modelled by `indexGet` /
`indexGetMut` with `Except.error` for the panic) panics exactly when the
checked lookup on the same identifier returns `None`, and otherwise
returns the very node the checked lookup returns. -/
theorem c6_index_panics_iff_get_none {T : Type} (a : Arena T)
    (id : NodeId) :
    (a.indexGet id = Except.error () ↔ a.get id = none) ∧
      (a.indexGet id).toOption = a.get id ∧
      (a.indexGetMut id = Except.error () ↔ a.get_mut id = none) ∧
      (a.indexGetMut id).toOption = a.get_mut id := by
  unfold Arena.indexGet Arena.indexGetMut
  refine ⟨?_, ?_, ?_, ?_⟩
  · cases a.get id <;> simp
  · cases a.get id <;> simp [Except.toOption]
  · cases a.get_mut id <;> simp
  · cases a.get_mut id <;> simp [Except.toOption]

/-! ### C4: arena equality -/

/-- The lockstep comparison loop decides list equality. -/
theorem eqLoop_iff {T : Type} [DecidableEq T] :
    ∀ xs ys : List (Node T), eqLoop xs ys = true ↔ xs = ys := by
  intro xs
  induction xs with
  | nil =>
    intro ys
    cases ys <;> simp [eqLoop]
  | cons x xs ih =>
    intro ys
    cases ys with
    | nil => simp [eqLoop]
    | cons y ys => simp [eqLoop, ih ys]

/-- C4: two arenas over a payload type with equality compare equal iff
they contain the same count of live nodes and iterating both in storage
order yields pairwise-equal nodes (payload and the five topology links). -/
theorem c4_arena_eq_iff {T : Type} [DecidableEq T] (a b : Arena T) :
    a.arenaEq b = true ↔ (a.count = b.count ∧ a.iter = b.iter) := by
  unfold Arena.arenaEq
  by_cases h : a.count = b.count <;> simp [h, eqLoop_iff]

/-! ### C9: iter_pairs agrees with get, iter and count -/

/-- Every identifier `iterPairsAux` yields looks up, in the arena whose
slot list extends the walked suffix, to exactly the paired node. -/
theorem iterPairsAux_get {T : Type} (a : Arena T) :
    ∀ (l : List (Entry T)) (n : Nat),
      (∀ j : Nat, l[j]? = a.slots[n + j]?) →
      (iterPairsAux l n).map (fun p => a.get p.1) =
        (iterPairsAux l n).map (fun p => some p.2) := by
  intro l
  induction l with
  | nil => intro n _; rfl
  | cons e rest ih =>
    intro n h
    have hshift : ∀ j : Nat, rest[j]? = a.slots[(n + 1) + j]? := by
      intro j
      have hj := h (j + 1)
      rw [show n + (j + 1) = n + 1 + j by omega] at hj
      simpa using hj
    cases e with
    | free g => exact ih (n + 1) hshift
    | occupied g v =>
      have h0 := h 0
      simp only [List.getElem?_cons_zero, Nat.add_zero] at h0
      simp only [iterPairsAux, List.map_cons]
      rw [ih (n + 1) hshift]
      have : a.get ⟨n, g⟩ = some v := by
        unfold Arena.get
        rw [← h0]
        simp
      rw [this]

/-- The nodes of `iterPairsAux` are the occupied slots in storage order. -/
theorem iterPairsAux_snd {T : Type} :
    ∀ (l : List (Entry T)) (n : Nat),
      (iterPairsAux l n).map Prod.snd =
        l.filterMap (fun e =>
          match e with
          | .occupied _ v => some v
          | .free _ => none) := by
  intro l
  induction l with
  | nil => intro n; rfl
  | cons e rest ih =>
    intro n
    cases e with
    | free g => simpa [iterPairsAux] using ih (n + 1)
    | occupied g v => simpa [iterPairsAux] using ih (n + 1)

/-- `iterPairsAux` yields one pair per occupied slot. -/
theorem iterPairsAux_length {T : Type} :
    ∀ (l : List (Entry T)) (n : Nat),
      (iterPairsAux l n).length = (l.filter Entry.isOccupied).length := by
  intro l
  induction l with
  | nil => intro n; rfl
  | cons e rest ih =>
    intro n
    cases e with
    | free g => simpa [iterPairsAux, Entry.isOccupied] using ih (n + 1)
    | occupied g v => simpa [iterPairsAux, Entry.isOccupied] using ih (n + 1)

/-- C9: every pair `(id, node)` yielded by `iter_pairs` satisfies
`get id = some node`; `iter_pairs` yields exactly the live slots in
storage order — the same nodes in the same order as `iter` — and its
length equals `count`. -/
theorem c9_iter_pairs_sound {T : Type} (a : Arena T) :
    a.iter_pairs.map (fun p => a.get p.1) =
        a.iter_pairs.map (fun p => some p.2) ∧
      a.iter_pairs.map Prod.snd = a.iter ∧
      a.iter_pairs.length = a.count := by
  refine ⟨?_, ?_, ?_⟩
  · exact iterPairsAux_get a a.slots 0 (fun j => by simp)
  · exact iterPairsAux_snd a.slots 0
  · exact iterPairsAux_length a.slots 0

/-! ### Insertion postconditions -/

/-- A successful `new_node` stores exactly the fresh node under the
returned identifier. -/
theorem new_node_ok_get {T : Type} (a : Arena T) (v : T) (id : NodeId)
    (a' : Arena T) (h : a.new_node v = .ok (id, a')) :
    a'.get id = some (Node.new v) := by
  unfold Arena.new_node at h
  cases hf : findFree a.slots with
  | some p =>
    obtain ⟨i, g⟩ := p
    rw [hf] at h
    injection h with h
    injection h with hid ha
    subst hid; subst ha
    have hslot := findFree_spec a.slots i g hf
    have hlt : i < a.slots.length := by
      rcases List.getElem?_eq_some_iff.mp hslot with ⟨hl, -⟩
      exact hl
    unfold Arena.get
    simp [List.getElem?_set_self hlt]
  | none =>
    rw [hf] at h
    by_cases hlen : a.slots.length < USIZE_MAX
    · rw [if_pos hlen] at h
      injection h with h
      injection h with hid ha
      subst hid; subst ha
      unfold Arena.get
      simp [List.getElem?_concat_length]
    · rw [if_neg hlen] at h
      exact absurd h (by simp)

/-! ### C10: a fresh node is a detached root -/

/-- C10: immediately after `id = new_node(v)`, the lookup `get id`
returns `Some` of a node whose payload equals `v` and whose five topology
links are all `None` — a freshly created node is a detached root. -/
theorem c10_new_node_detached_root {T : Type} (a : Arena T) (v : T)
    (id : NodeId) (a' : Arena T) (h : a.new_node v = .ok (id, a')) :
    a'.get id = some (Node.new v) ∧
      (Node.new v).data = v ∧
      (Node.new v).parent = none ∧
      (Node.new v).first_child = none ∧
      (Node.new v).last_child = none ∧
      (Node.new v).previous_sibling = none ∧
      (Node.new v).next_sibling = none :=
  ⟨new_node_ok_get a v id a' h, rfl, rfl, rfl, rfl, rfl, rfl⟩

theorem c10_new_node_detached_root_witness :
    ((Arena.new Nat).new_node 5 =
        Except.ok
          (⟨0, 0⟩, (⟨[Entry.occupied 0 (Node.new 5)]⟩ : Arena Nat))) ∧
      ((⟨[Entry.occupied 0 (Node.new 5)]⟩ : Arena Nat).get ⟨0, 0⟩ =
          some (Node.new 5) ∧
        (Node.new (5 : Nat)).data = 5 ∧
        (Node.new (5 : Nat)).parent = none ∧
        (Node.new (5 : Nat)).first_child = none ∧
        (Node.new (5 : Nat)).last_child = none ∧
        (Node.new (5 : Nat)).previous_sibling = none ∧
        (Node.new (5 : Nat)).next_sibling = none) :=
  ⟨rfl, c10_new_node_detached_root (Arena.new Nat) 5 ⟨0, 0⟩ _ rfl⟩

/-! ### C7: capacity exhaustion is the only failure -/

/-- C7: `new_node` fails only when the slot count is already at the
addressable ceiling; below the ceiling it always succeeds and the stored
value is retrievable through the returned identifier. -/
theorem c7_new_node_fails_only_at_capacity {T : Type} (a : Arena T)
    (v : T) :
    (a.slots.length < USIZE_MAX →
        ∃ id a', a.new_node v = .ok (id, a') ∧
          a'.get id = some (Node.new v)) ∧
      (a.new_node v = .error () → USIZE_MAX ≤ a.slots.length) := by
  constructor
  · intro hlen
    cases hf : findFree a.slots with
    | some p =>
      obtain ⟨i, g⟩ := p
      have h : a.new_node v =
          .ok (⟨i, g⟩, ⟨a.slots.set i (.occupied g (Node.new v))⟩) := by
        unfold Arena.new_node
        rw [hf]
      exact ⟨_, _, h, new_node_ok_get a v _ _ h⟩
    | none =>
      have h : a.new_node v =
          .ok (⟨a.slots.length, 0⟩,
            ⟨a.slots ++ [.occupied 0 (Node.new v)]⟩) := by
        unfold Arena.new_node
        rw [hf, if_pos hlen]
      exact ⟨_, _, h, new_node_ok_get a v _ _ h⟩
  · intro herr
    unfold Arena.new_node at herr
    cases hf : findFree a.slots with
    | some p =>
      obtain ⟨i, g⟩ := p
      rw [hf] at herr
      exact absurd herr (by simp)
    | none =>
      rw [hf] at herr
      by_cases hlen : a.slots.length < USIZE_MAX
      · rw [if_pos hlen] at herr
        exact absurd herr (by simp)
      · omega

theorem c7_new_node_fails_only_at_capacity_witness :
    ((Arena.new Nat).slots.length < USIZE_MAX) ∧
      (∃ id a', (Arena.new Nat).new_node 3 = .ok (id, a') ∧
        a'.get id = some (Node.new 3)) :=
  ⟨by decide,
    (c7_new_node_fails_only_at_capacity (Arena.new Nat) 3).1 (by decide)⟩

/-! ### C8: lowest free slot is reused, otherwise append -/

/-- C8: `new_node` stores the value in a free slot when one exists,
reusing the lowest free slot with that slot's already-bumped generation,
and appends a new slot only when no freed slot is available. -/
theorem c8_new_node_reuses_lowest_free {T : Type} (a : Arena T) (v : T) :
    ((∃ i g : Nat, a.slots[i]? = some (Entry.free g)) →
        ∃ i g : Nat,
          a.slots[i]? = some (Entry.free g) ∧
            (∀ j, j < i → ∀ e, a.slots[j]? = some e → e.isFree = false) ∧
            a.new_node v =
              .ok (⟨i, g⟩, ⟨a.slots.set i (.occupied g (Node.new v))⟩)) ∧
      ((∀ i g : Nat, a.slots[i]? ≠ some (Entry.free g)) →
        a.slots.length < USIZE_MAX →
        a.new_node v =
          .ok (⟨a.slots.length, 0⟩,
            ⟨a.slots ++ [.occupied 0 (Node.new v)]⟩)) := by
  constructor
  · rintro ⟨i0, g0, hfree⟩
    cases hf : findFree a.slots with
    | none => exact absurd hfree (findFree_none_spec a.slots hf i0 g0)
    | some p =>
      obtain ⟨i, g⟩ := p
      refine ⟨i, g, findFree_spec a.slots i g hf,
        findFree_lowest a.slots i g hf, ?_⟩
      unfold Arena.new_node
      rw [hf]
  · intro hnone hlen
    have hf : findFree a.slots = none := by
      cases hf : findFree a.slots with
      | none => rfl
      | some p =>
        obtain ⟨i, g⟩ := p
        exact absurd (findFree_spec a.slots i g hf) (hnone i g)
    unfold Arena.new_node
    rw [hf, if_pos hlen]

theorem c8_new_node_reuses_lowest_free_witness :
    (∃ i g : Nat,
        (⟨[Entry.occupied 0 (Node.new (1 : Nat)), Entry.free 3,
            Entry.free 7]⟩ : Arena Nat).slots[i]? =
          some (Entry.free g)) ∧
      (∃ i g : Nat,
        (⟨[Entry.occupied 0 (Node.new (1 : Nat)), Entry.free 3,
            Entry.free 7]⟩ : Arena Nat).slots[i]? =
            some (Entry.free g) ∧
          (∀ j, j < i →
            ∀ e,
              (⟨[Entry.occupied 0 (Node.new (1 : Nat)), Entry.free 3,
                  Entry.free 7]⟩ : Arena Nat).slots[j]? = some e →
              e.isFree = false) ∧
          (⟨[Entry.occupied 0 (Node.new (1 : Nat)), Entry.free 3,
              Entry.free 7]⟩ : Arena Nat).new_node 2 =
            .ok (⟨i, g⟩,
              ⟨(⟨[Entry.occupied 0 (Node.new (1 : Nat)), Entry.free 3,
                  Entry.free 7]⟩ : Arena Nat).slots.set i
                (.occupied g (Node.new 2))⟩)) :=
  ⟨⟨1, 3, rfl⟩,
    (c8_new_node_reuses_lowest_free
        (⟨[Entry.occupied 0 (Node.new (1 : Nat)), Entry.free 3,
          Entry.free 7]⟩ : Arena Nat) 2).1 ⟨1, 3, rfl⟩⟩

/-! ### C1: removed identifiers stay invalid, even across slot reuse -/

/-- Inversion of a successful checked lookup: the slot holds the node
under exactly the identifier's generation. -/
theorem get_eq_some_inv {T : Type} {a : Arena T} {id : NodeId}
    {n : Node T} (h : a.get id = some n) :
    a.slots[id.index]? = some (Entry.occupied id.generation n) := by
  unfold Arena.get at h
  split at h
  · rename_i g v heq
    split at h
    · rename_i hg
      injection h with h
      subst h
      rw [heq, hg]
    · exact absurd h (by simp)
  · exact absurd h (by simp)

/-- C1: once a live identifier's slot is freed by a remove, the checked
accessors `get` and `get_mut` on that identifier return `None`, and they
still return `None` after a subsequent `new_node` — even when the new
node reuses the very same slot index, because the reused slot carries a
strictly greater generation. -/
theorem c1_removed_id_never_aliases {T : Type} (a : Arena T) (id : NodeId)
    (n : Node T) (v : T) (id2 : NodeId) (a2 : Arena T)
    (h : a.get id = some n)
    (hins : (a.removeSlot id).new_node v = .ok (id2, a2)) :
    ((a.removeSlot id).get id = none ∧
        (a.removeSlot id).get_mut id = none) ∧
      (a2.get id = none ∧ a2.get_mut id = none) := by
  have he := get_eq_some_inv h
  have hlt : id.index < a.slots.length := by
    rcases List.getElem?_eq_some_iff.mp he with ⟨hl, -⟩
    exact hl
  have hrm : a.removeSlot id =
      ⟨a.slots.set id.index (.free (id.generation + 1))⟩ := by
    unfold Arena.removeSlot
    rw [he]
    simp
  have hfreed :
      (a.slots.set id.index (.free (id.generation + 1)))[id.index]? =
        some (Entry.free (id.generation + 1)) :=
    List.getElem?_set_self hlt
  have hget : (a.removeSlot id).get id = none := by
    rw [hrm]
    unfold Arena.get
    rw [hfreed]
  refine ⟨⟨hget, by rw [← get_eq_get_mut]; exact hget⟩, ?_⟩
  rw [hrm] at hins
  unfold Arena.new_node at hins
  cases hf :
      findFree (a.slots.set id.index (.free (id.generation + 1))) with
  | some p =>
    obtain ⟨i, g2⟩ := p
    rw [hf] at hins
    injection hins with hins
    injection hins with hid2 ha2
    subst ha2
    have hnone : (Arena.mk
        ((a.slots.set id.index (.free (id.generation + 1))).set i
          (.occupied g2 (Node.new v))) : Arena T).get id = none := by
      unfold Arena.get
      by_cases hidx : i = id.index
      · subst hidx
        have hg2 : g2 = id.generation + 1 := by
          have hsp := findFree_spec _ id.index g2 hf
          rw [List.getElem?_set_self hlt] at hsp
          injection hsp with hsp
          injection hsp with hsp
          exact hsp.symm
        have hlt2 : id.index <
            (a.slots.set id.index
              (Entry.free (id.generation + 1))).length := by
          simpa using hlt
        rw [List.getElem?_set_self hlt2]
        have hne : ¬ g2 = id.generation := by omega
        simp [hne]
      · rw [List.getElem?_set_ne hidx, hfreed]
    exact ⟨hnone, by rw [← get_eq_get_mut]; exact hnone⟩
  | none =>
    rw [hf] at hins
    by_cases hlen :
        (a.slots.set id.index
          (.free (id.generation + 1))).length < USIZE_MAX
    · rw [if_pos hlen] at hins
      injection hins with hins
      injection hins with hid2 ha2
      subst ha2
      have hlt' : id.index <
          (a.slots.set id.index (.free (id.generation + 1))).length := by
        simpa using hlt
      have hnone : (Arena.mk
          ((a.slots.set id.index (.free (id.generation + 1))) ++
            [.occupied 0 (Node.new v)]) : Arena T).get id = none := by
        unfold Arena.get
        rw [List.getElem?_append_left hlt', hfreed]
      exact ⟨hnone, by rw [← get_eq_get_mut]; exact hnone⟩
    · rw [if_neg hlen] at hins
      exact absurd hins (by simp)

theorem c1_removed_id_never_aliases_witness :
    ((⟨[Entry.occupied 0 (Node.new (9 : Nat))]⟩ : Arena Nat).get ⟨0, 0⟩ =
        some (Node.new 9)) ∧
      ((⟨[Entry.occupied 0 (Node.new (9 : Nat))]⟩ :
            Arena Nat).removeSlot ⟨0, 0⟩ |>.new_node 5) =
        Except.ok
          ((⟨0, 1⟩ : NodeId),
            (⟨[Entry.occupied 1 (Node.new 5)]⟩ : Arena Nat)) ∧
      (((⟨[Entry.occupied 0 (Node.new (9 : Nat))]⟩ :
              Arena Nat).removeSlot ⟨0, 0⟩ |>.get ⟨0, 0⟩) = none ∧
        ((⟨[Entry.occupied 0 (Node.new (9 : Nat))]⟩ :
              Arena Nat).removeSlot ⟨0, 0⟩ |>.get_mut ⟨0, 0⟩) = none) ∧
      ((⟨[Entry.occupied 1 (Node.new (5 : Nat))]⟩ : Arena Nat).get ⟨0, 0⟩ =
          none ∧
        (⟨[Entry.occupied 1 (Node.new (5 : Nat))]⟩ :
            Arena Nat).get_mut ⟨0, 0⟩ = none) := by
  refine ⟨rfl, rfl, ?_⟩
  exact c1_removed_id_never_aliases
    (⟨[Entry.occupied 0 (Node.new (9 : Nat))]⟩ : Arena Nat) ⟨0, 0⟩
    (Node.new 9) 5 ⟨0, 1⟩
    (⟨[Entry.occupied 1 (Node.new 5)]⟩ : Arena Nat) rfl rfl

/-! ### C5: slot reuse bounds growth -/

/-- Inserting into an arena with no free slot appends: the slots grow by
exactly the inserted payloads, and the issued identifiers are the fresh
indices with generation `0`. -/
theorem insertList_all_occupied {T : Type} :
    ∀ (vs : List T) (a : Arena T),
      (∀ e ∈ a.slots, e.isFree = false) →
      a.slots.length + vs.length ≤ USIZE_MAX →
      a.insertList vs =
        .ok ((List.range' a.slots.length vs.length).map
            (fun i => (⟨i, 0⟩ : NodeId)),
          ⟨a.slots ++ vs.map (fun v => .occupied 0 (Node.new v))⟩) := by
  intro vs
  induction vs with
  | nil =>
    intro a h hlen
    simp [Arena.insertList]
  | cons v rest ih =>
    intro a h hlen
    have hf := findFree_eq_none a.slots h
    have hlt : a.slots.length < USIZE_MAX := by
      simp only [List.length_cons] at hlen
      omega
    have hnew : a.new_node v =
        .ok (⟨a.slots.length, 0⟩,
          ⟨a.slots ++ [.occupied 0 (Node.new v)]⟩) := by
      unfold Arena.new_node
      rw [hf]
      simp [hlt]
    have hocc :
        ∀ e ∈ (Arena.mk (a.slots ++ [Entry.occupied 0 (Node.new v)]) :
            Arena T).slots, e.isFree = false := by
      intro e he
      simp at he
      rcases he with he | he
      · exact h e he
      · subst he; rfl
    have hlen' :
        (Arena.mk (a.slots ++ [Entry.occupied 0 (Node.new v)]) :
            Arena T).slots.length + rest.length ≤ USIZE_MAX := by
      simp only [List.length_cons] at hlen
      simp
      omega
    have ih' := ih ⟨a.slots ++ [Entry.occupied 0 (Node.new v)]⟩ hocc hlen'
    simp only [Arena.insertList, hnew, ih']
    simp [List.range'_succ, List.append_assoc]

/-- Removing, in index order, the nodes stored past an untouched prefix
frees each of their slots and bumps its generation to `1`. -/
theorem removeList_frees {T : Type} :
    ∀ (ns : List (Node T)) (pre : List (Entry T)),
      Arena.removeList ⟨pre ++ ns.map (fun n => .occupied 0 n)⟩
          ((List.range' pre.length ns.length).map
            (fun i => (⟨i, 0⟩ : NodeId))) =
        ⟨pre ++ List.replicate ns.length (.free 1)⟩ := by
  intro ns
  induction ns with
  | nil => intro pre; simp [Arena.removeList]
  | cons n rest ih =>
    intro pre
    have hstep : Arena.removeSlot
        ⟨pre ++ Entry.occupied 0 n ::
          rest.map (fun m => Entry.occupied 0 m)⟩ ⟨pre.length, 0⟩ =
        ⟨(pre ++ [.free 1]) ++ rest.map (fun m => Entry.occupied 0 m)⟩ := by
      unfold Arena.removeSlot
      rw [show (Arena.mk (pre ++ Entry.occupied 0 n ::
          rest.map (fun m => Entry.occupied 0 m)) : Arena T).slots =
        pre ++ Entry.occupied 0 n ::
          rest.map (fun m => Entry.occupied 0 m) from rfl]
      rw [List.getElem?_append_right (Nat.le_refl pre.length)]
      simp [List.set_append_right _ _ (Nat.le_refl pre.length)]
    have ih' := ih (pre ++ [Entry.free 1])
    simp only [List.length_append, List.length_cons, List.length_nil,
      Nat.zero_add] at ih'
    simp only [Arena.removeList, List.length_cons, List.range'_succ,
      List.map_cons, List.foldl_cons] at ih' ⊢
    rw [hstep, ih']
    simp [List.replicate_succ, List.append_assoc]

/-- Inserting into an arena whose slots are an occupied prefix followed by
exactly enough free slots of generation `g` reuses those slots from the
lowest index up, issuing identifiers carrying the bumped generation. -/
theorem insertList_reuse {T : Type} :
    ∀ (vs : List T) (os : List (Entry T)) (g : Nat),
      (∀ e ∈ os, e.isFree = false) →
      Arena.insertList ⟨os ++ List.replicate vs.length (.free g)⟩ vs =
        .ok ((List.range' os.length vs.length).map
            (fun i => (⟨i, g⟩ : NodeId)),
          ⟨os ++ vs.map (fun v => .occupied g (Node.new v))⟩) := by
  intro vs
  induction vs with
  | nil =>
    intro os g h
    simp [Arena.insertList]
  | cons v rest ih =>
    intro os g h
    have hf : findFree (os ++ List.replicate (v :: rest).length
        (Entry.free g)) = some (os.length, g) := by
      simp only [List.length_cons, List.replicate_succ]
      exact findFree_append_free os g _ h
    have hnew : (Arena.mk (os ++ List.replicate (v :: rest).length
          (Entry.free g)) : Arena T).new_node v =
        .ok (⟨os.length, g⟩,
          ⟨(os ++ [Entry.occupied g (Node.new v)]) ++
            List.replicate rest.length (Entry.free g)⟩) := by
      unfold Arena.new_node
      rw [show (Arena.mk (os ++ List.replicate (v :: rest).length
          (Entry.free g)) : Arena T).slots =
        os ++ List.replicate (v :: rest).length (Entry.free g) from rfl]
      rw [hf]
      simp only [List.length_cons, List.replicate_succ]
      rw [List.set_append_right _ _ (Nat.le_refl os.length)]
      simp
    have hocc : ∀ e ∈ os ++ [Entry.occupied g (Node.new v)],
        e.isFree = false := by
      intro e he
      simp at he
      rcases he with he | he
      · exact h e he
      · subst he; rfl
    have ih' := ih (os ++ [Entry.occupied g (Node.new v)]) g hocc
    simp only [Arena.insertList, hnew, ih']
    simp only [List.length_append, List.length_cons, List.length_nil,
      Nat.zero_add]
    simp [List.range'_succ, List.append_assoc]

/-- An arena whose slots are exactly the images of a payload list under
occupation has one live node per payload. -/
theorem count_map_occupied {T : Type} (g : Nat) (vs : List T) :
    (Arena.mk (vs.map (fun v => Entry.occupied g (Node.new v))) :
        Arena T).count = vs.length := by
  unfold Arena.count
  induction vs with
  | nil => rfl
  | cons v rest ih =>
    simpa [List.filter, Entry.isOccupied] using ih

/-- C5 fails as frozen for an arbitrary starting arena: with one
pre-existing live node, inserting one node, removing it and inserting one
more leaves two live nodes, so `count` does not return `k = 1`. -/
theorem c5_counterexample_nonempty_start :
    (⟨[Entry.occupied 0 (Node.new (0 : Nat))]⟩ :
        Arena Nat).insertList [1] =
      .ok ([⟨1, 0⟩],
        ⟨[Entry.occupied 0 (Node.new 0),
          Entry.occupied 0 (Node.new 1)]⟩) ∧
    ((⟨[Entry.occupied 0 (Node.new 0),
          Entry.occupied 0 (Node.new 1)]⟩ :
        Arena Nat).removeList [⟨1, 0⟩]).insertList [2] =
      .ok ([⟨1, 1⟩],
        ⟨[Entry.occupied 0 (Node.new 0),
          Entry.occupied 1 (Node.new 2)]⟩) ∧
    ¬ (⟨[Entry.occupied 0 (Node.new 0),
          Entry.occupied 1 (Node.new 2)]⟩ : Arena Nat).count = 1 := by
  refine ⟨rfl, rfl, by decide⟩

/-- C5 (amended): starting from the *empty* arena, inserting `k` nodes,
removing all `k` of them, then inserting `k` more yields exactly `k` live
nodes — `count` returns `k` and the slot pool still holds only `k` slots
(reuse prevents growth). -/
theorem c5_slot_reuse_amended {T : Type} (k : Nat) (vs ws : List T)
    (hv : vs.length = k) (hw : ws.length = k) (hk : k ≤ USIZE_MAX) :
    ∃ (ids ids2 : List NodeId) (a1 a3 : Arena T),
      (Arena.new T).insertList vs = .ok (ids, a1) ∧
        (a1.removeList ids).insertList ws = .ok (ids2, a3) ∧
        a3.count = k ∧ a3.slots.length = k := by
  have h1 := insertList_all_occupied vs (Arena.new T)
    (by simp [Arena.new]) (by simp [Arena.new]; omega)
  simp only [Arena.new, List.length_nil, List.nil_append] at h1
  refine ⟨(List.range' 0 vs.length).map (fun i => (⟨i, 0⟩ : NodeId)),
    (List.range' 0 ws.length).map (fun i => (⟨i, 1⟩ : NodeId)),
    ⟨vs.map (fun v => .occupied 0 (Node.new v))⟩,
    ⟨ws.map (fun v => .occupied 1 (Node.new v))⟩, h1, ?_, ?_, ?_⟩
  · have hmm : (vs.map Node.new).map
        (fun n => (Entry.occupied 0 n : Entry T)) =
        vs.map (fun v => (Entry.occupied 0 (Node.new v) : Entry T)) := by
      simp [List.map_map, Function.comp_def]
    have h2 := removeList_frees (vs.map Node.new) ([] : List (Entry T))
    simp only [List.length_nil, List.length_map, List.nil_append] at h2
    rw [← hmm, h2]
    have h3 := insertList_reuse ws ([] : List (Entry T)) 1 (by simp)
    simp only [List.length_nil, List.nil_append] at h3
    rw [hv, ← hw]
    exact h3
  · rw [count_map_occupied]
    exact hw
  · simp [hw]

theorem c5_slot_reuse_amended_witness :
    ([(1 : Nat), 2].length = 2 ∧ [(3 : Nat), 4].length = 2 ∧
        2 ≤ USIZE_MAX) ∧
      ∃ (ids ids2 : List NodeId) (a1 a3 : Arena Nat),
        (Arena.new Nat).insertList [1, 2] = .ok (ids, a1) ∧
          (a1.removeList ids).insertList [3, 4] = .ok (ids2, a3) ∧
          a3.count = 2 ∧ a3.slots.length = 2 :=
  ⟨⟨rfl, rfl, by decide⟩,
    c5_slot_reuse_amended 2 [1, 2] [3, 4] rfl rfl (by decide)⟩

end GenIndexTree
